import Mathlib

/-!
Verification of the AWS Glue data-lake setup/teardown orchestration
(`app/iac/setup.py`, `app/iac/teardown.py`, `app/iac/common.py`,
`app/iac/s3.py`, `app/iac/glue.py`, `app/iac/vpc.py`, `app/iac/iam.py`).

The remote cloud provider is modelled as an opaque environment: each
orchestrator run is embedded as the list of client operations it issues,
in order.  The manual polling wait of `common.wait_for_glue_database` is
embedded over an abstract per-attempt describe outcome, and the schema
loader of `setup.load_glue_table_configs` over an abstract directory tree.
-/

/-- Outcome of one `client.get_database` describe attempt, as seen by
`wait_for_glue_database`: success, the `EntityNotFoundException` class that
the `except` clause catches, or any other error (uncaught there). -/
inductive DescribeOutcome where
  | found
  | notFound
  | failure (err : String)
  deriving DecidableEq, Repr

/-- Observable result of `wait_for_glue_database`: normal return (recording
how many describe attempts were issued), the `TimeoutError` raised after the
loop, or a propagated non-"not found" error (recording how many describe
attempts were issued before it propagated). -/
inductive WaitResult where
  | ok (attemptsUsed : Nat)
  | timedOut (message : String)
  | err (error : String) (attemptsUsed : Nat)
  deriving DecidableEq, Repr

/-- Loop body of `wait_for_glue_database`: `attempt` is the 0-based index of
the next describe attempt (the Python `for attempt in range(max_attempts)`
variable); the second argument is the number of loop iterations left. -/
def waitGo (describe : Nat → DescribeOutcome) (databaseName : String)
    (attempt : Nat) : Nat → WaitResult
  | 0 => .timedOut ("Timed out waiting for Glue database: " ++ databaseName)
  | remaining + 1 =>
    match describe attempt with
    | .found => .ok (attempt + 1)
    | .notFound => waitGo describe databaseName (attempt + 1) remaining
    | .failure e => .err e (attempt + 1)

/-- Embedding of `common.wait_for_glue_database(client, database_name,
delay=5, max_attempts=20)`.  The boto3 client is abstracted to the function
`describe` giving the outcome of each attempt; `delay` only feeds
`asyncio.sleep` and has no further observable effect. -/
def waitForGlueDatabase (describe : Nat → DescribeOutcome)
    (databaseName : String) (delay : Nat := 5) (maxAttempts : Nat := 20) :
    WaitResult :=
  waitGo describe databaseName 0 maxAttempts

lemma waitGo_ok (describe : Nat → DescribeOutcome) (databaseName : String) :
    ∀ k start remaining, k < remaining →
      (∀ i, i < k → describe (start + i) = .notFound) →
      describe (start + k) = .found →
      waitGo describe databaseName start remaining = .ok (start + k + 1) := by
  intro k
  induction k with
  | zero =>
    intro start remaining hk _ hfound
    obtain ⟨r, rfl⟩ := Nat.exists_eq_add_of_lt hk
    simp only [waitGo]
    rw [show start + 0 = start from rfl] at hfound
    rw [hfound]
  | succ k ih =>
    intro start remaining hk hnf hfound
    obtain ⟨r, rfl⟩ := Nat.exists_eq_add_of_lt hk
    have h0 : describe start = .notFound := by
      have := hnf 0 (Nat.succ_pos k)
      simpa using this
    simp only [waitGo, h0]
    have hnf' : ∀ i, i < k → describe (start + 1 + i) = .notFound := by
      intro i hi
      have := hnf (i + 1) (Nat.succ_lt_succ hi)
      rw [show start + 1 + i = start + (i + 1) by omega]
      exact this
    have hfound' : describe (start + 1 + k) = .found := by
      rw [show start + 1 + k = start + (k + 1) by omega]
      exact hfound
    have := ih (start + 1) (k + 1 + r) (by omega) hnf' hfound'
    rw [this]
    congr 1
    omega

lemma waitGo_timeout (describe : Nat → DescribeOutcome) (databaseName : String) :
    ∀ remaining start,
      (∀ i, i < remaining → describe (start + i) = .notFound) →
      waitGo describe databaseName start remaining =
        .timedOut ("Timed out waiting for Glue database: " ++ databaseName) := by
  intro remaining
  induction remaining with
  | zero => intro start _; rfl
  | succ r ih =>
    intro start hnf
    have h0 : describe start = .notFound := by
      have := hnf 0 (Nat.succ_pos r)
      simpa using this
    simp only [waitGo, h0]
    exact ih (start + 1) fun i hi => by
      have := hnf (i + 1) (Nat.succ_lt_succ hi)
      rw [show start + 1 + i = start + (i + 1) by omega]
      exact this

lemma waitGo_err (describe : Nat → DescribeOutcome) (databaseName : String)
    (e : String) :
    ∀ k start remaining, k < remaining →
      (∀ i, i < k → describe (start + i) = .notFound) →
      describe (start + k) = .failure e →
      waitGo describe databaseName start remaining = .err e (start + k + 1) := by
  intro k
  induction k with
  | zero =>
    intro start remaining hk _ hfail
    obtain ⟨r, rfl⟩ := Nat.exists_eq_add_of_lt hk
    simp only [waitGo]
    rw [show start + 0 = start from rfl] at hfail
    rw [hfail]
  | succ k ih =>
    intro start remaining hk hnf hfail
    obtain ⟨r, rfl⟩ := Nat.exists_eq_add_of_lt hk
    have h0 : describe start = .notFound := by
      have := hnf 0 (Nat.succ_pos k)
      simpa using this
    simp only [waitGo, h0]
    have hnf' : ∀ i, i < k → describe (start + 1 + i) = .notFound := by
      intro i hi
      have := hnf (i + 1) (Nat.succ_lt_succ hi)
      rw [show start + 1 + i = start + (i + 1) by omega]
      exact this
    have hfail' : describe (start + 1 + k) = .failure e := by
      rw [show start + 1 + k = start + (k + 1) by omega]
      exact hfail
    have := ih (start + 1) (k + 1 + r) (by omega) hnf' hfail'
    rw [this]
    congr 1
    omega

/-- C4: if the describe reports "not found" on the first `k` attempts
(`k < maxAttempts`) and succeeds on attempt `k+1`, the wait returns normally
after exactly `k+1` describe attempts; if it reports "not found" on all
`maxAttempts` attempts (defaults: ceiling 20, delay 5), the wait raises the
timeout error naming the database. -/
theorem wait_for_glue_database_polls (describe : Nat → DescribeOutcome)
    (databaseName : String) (delay maxAttempts k : Nat) :
    (k < maxAttempts →
      (∀ i, i < k → describe i = .notFound) →
      describe k = .found →
      waitForGlueDatabase describe databaseName delay maxAttempts =
        .ok (k + 1)) ∧
    ((∀ i, i < maxAttempts → describe i = .notFound) →
      waitForGlueDatabase describe databaseName delay maxAttempts =
        .timedOut ("Timed out waiting for Glue database: " ++ databaseName)) := by
  constructor
  · intro hk hnf hfound
    have := waitGo_ok describe databaseName k 0 maxAttempts hk
      (fun i hi => by simpa using hnf i hi) (by simpa using hfound)
    simpa [waitForGlueDatabase] using this
  · intro hnf
    have := waitGo_timeout describe databaseName maxAttempts 0
      (fun i hi => by simpa using hnf i hi)
    simpa [waitForGlueDatabase] using this

/-- Describe behavior used to witness C4: "not found" on the first two
attempts, success afterwards. -/
def describeAfterTwo : Nat → DescribeOutcome :=
  fun i => if i < 2 then .notFound else .found

/-- Describe behavior used to witness C4's timeout half: always "not found". -/
def describeNever : Nat → DescribeOutcome := fun _ => .notFound

theorem wait_for_glue_database_polls_witness :
    waitForGlueDatabase describeAfterTwo "stedi_db" = .ok 3 ∧
    waitForGlueDatabase describeNever "stedi_db" =
      .timedOut "Timed out waiting for Glue database: stedi_db" := by
  constructor
  · exact (wait_for_glue_database_polls describeAfterTwo "stedi_db" 5 20 2).1
      (by decide) (fun i hi => by simp [describeAfterTwo, hi])
      (by simp [describeAfterTwo])
  · exact (wait_for_glue_database_polls describeNever "stedi_db" 5 20 2).2
      (fun i _ => rfl)

/-- C5: an error from the describe attempt that is not the "not found" class
propagates immediately: the wait ends with that error on the attempt that
produced it, with no further describe attempt. -/
theorem wait_for_glue_database_propagates (describe : Nat → DescribeOutcome)
    (databaseName e : String) (delay maxAttempts j : Nat)
    (hj : j < maxAttempts)
    (hnf : ∀ i, i < j → describe i = .notFound)
    (hfail : describe j = .failure e) :
    waitForGlueDatabase describe databaseName delay maxAttempts =
      .err e (j + 1) := by
  have := waitGo_err describe databaseName e j 0 maxAttempts hj
    (fun i hi => by simpa using hnf i hi) (by simpa using hfail)
  simpa [waitForGlueDatabase] using this

/-- Describe behavior used to witness C5: "not found" once, then an
`AccessDeniedException`-style error on the second attempt. -/
def describeThenFails : Nat → DescribeOutcome :=
  fun i => if i = 0 then .notFound else .failure "AccessDeniedException"

theorem wait_for_glue_database_propagates_witness :
    waitForGlueDatabase describeThenFails "stedi_db" =
      .err "AccessDeniedException" 2 := by
  exact wait_for_glue_database_propagates describeThenFails "stedi_db"
    "AccessDeniedException" 5 20 1 (by decide)
    (fun i hi => by interval_cases i <;> rfl) rfl

/-- Embedding of `app/config.py`: the values read once from `dwh.cfg`.
The orchestration treats them as opaque strings. -/
structure Config where
  s3BucketName : String
  routeTableId : String
  vpcId : String
  region : String
  glueRoleName : String
  glueRolePolicyName : String
  s3RolePolicyName : String
  dbName : String
  deriving DecidableEq, Repr

/-- One column record of a `schema.json` file: `{"Name": ..., "Type": ...}`. -/
structure GlueColumn where
  name : String
  colType : String
  deriving DecidableEq, Repr

/-- Embedding of the `GlueTableConfig` dataclass of `app/iac/glue.py`,
defaults included.  `folderPre` embeds the `folder_prefix` field. -/
structure GlueTableConfig where
  databaseName : String
  tableName : String
  bucketName : String
  folderPre : String
  columns : List GlueColumn
  classification : String := "json"
  serdeLibrary : String := "org.openx.data.jsonserde.JsonSerDe"
  inputFormat : String := "org.apache.hadoop.mapred.TextInputFormat"
  outputFormat : String := "org.apache.hadoop.hive.ql.io.HiveIgnoreKeyTextOutputFormat"
  deriving DecidableEq, Repr

/-- A schema-directory entry: a file (with its parsed JSON column list — the
`json.load` of `load_glue_table_configs`) or a subdirectory. -/
inductive FsEntry where
  | file (name : String) (columns : List GlueColumn)
  | dir (name : String) (entries : List FsEntry)

/-- Columns of the `schema.json` file of a subentity directory, when that
file exists (`(subfolder / "schema.json").is_file()`). -/
def schemaColumns? : List FsEntry → Option (List GlueColumn)
  | [] => none
  | .file n cols :: rest =>
    if n = "schema.json" then some cols else schemaColumns? rest
  | .dir _ _ :: rest => schemaColumns? rest

/-- The `GlueTableConfig` built by `load_glue_table_configs` for one
(entity, subentity) pair. -/
def mkGlueTableConfig (databaseName entity sub bucketName : String)
    (columns : List GlueColumn) : GlueTableConfig :=
  { databaseName := databaseName
    tableName := entity ++ "_" ++ sub
    bucketName := bucketName
    folderPre := entity ++ "/" ++ sub ++ "/"
    columns := columns }

/-- Configs contributed by one subentity directory of `entity`: one config
when its `schema.json` exists, none otherwise (logged and skipped). -/
def subentityConfigs (databaseName entity bucketName : String) :
    FsEntry → List GlueTableConfig
  | .file _ _ => []
  | .dir sub entries =>
    match schemaColumns? entries with
    | some cols => [mkGlueTableConfig databaseName entity sub bucketName cols]
    | none => []

/-- Configs contributed by one entry of the base `schemas` directory:
non-directories are skipped (`if not entity_dir.is_dir(): continue`). -/
def entityConfigs (databaseName bucketName : String) :
    FsEntry → List GlueTableConfig
  | .file _ _ => []
  | .dir entity subs => subs.flatMap (subentityConfigs databaseName entity bucketName)

/-- Embedding of `setup.load_glue_table_configs(database_name)`; the bucket
name comes from the module-level `S3_BUCKET_NAME` of `config.py`, the
directory tree abstracts `schemas/`. -/
def loadGlueTableConfigs (cfg : Config) (schemas : List FsEntry)
    (databaseName : String) : List GlueTableConfig :=
  schemas.flatMap (entityConfigs databaseName cfg.s3BucketName)

/-- An entry of the local `data/` directory tree used by
`s3.load_data_to_bucket`. -/
inductive DataEntry where
  | file (name : String)
  | dir (name : String) (entries : List DataEntry)

/-- The entries of an entity folder's `landing` subdirectory, when present
(`landing_dir = folder / "landing"; if not landing_dir.exists(): skip`). -/
def findLanding : List DataEntry → Option (List DataEntry)
  | [] => none
  | .dir n es :: rest => if n = "landing" then some es else findLanding rest
  | .file _ :: rest => findLanding rest

/-- Full response payload of `ec2.create_vpc_endpoint`, the object pickled
by setup's endpoint step.  `vpcEndpointId` embeds
`resp["VpcEndpoint"]["VpcEndpointId"]`; `rest` stands for every other key of
the payload, round-tripped opaquely. -/
structure VpcEndpointInfo where
  vpcEndpointId : String
  rest : List (String × String)
  deriving DecidableEq, Repr

/-- The create-endpoint response dict: the `"VpcEndpoint"` entry plus the
remaining top-level keys. -/
structure VpcEndpointResponse where
  vpcEndpoint : VpcEndpointInfo
  rest : List (String × String)
  deriving DecidableEq, Repr

/-- One remote client operation issued by the orchestrators, at the
granularity of the `app/iac/{s3,iam,vpc,glue}.py` client functions (plus the
waiter invocations and the local handoff-file write). -/
inductive Op where
  | createBucket (bucketName locationConstraint : String)
  | waitBucketExists (bucketName : String)
  | createGlueServiceRole (roleName : String)
  | putInlineS3Policy (roleName policyName bucketName : String)
  | putGlueGeneralPolicy (roleName policyName : String)
  | createVpcEndpoint (vpcId routeTableId serviceName : String)
  | writeHandoffFile
  | uploadFile (bucketName key : String)
  | createGlueDatabase (databaseName : String)
  | waitGlueDatabase (databaseName : String)
  | createGlueTable (config : GlueTableConfig)
  | deleteVpcEndpoint (endpointId : String)
  | deleteInlineS3Policy (roleName : String)
  | deleteGlueGeneralPolicy (roleName : String)
  | deleteGlueServiceRole (roleName : String)
  | deleteAllTablesInDatabase (databaseName : String)
  | deleteGlueDatabase (databaseName : String)
  | deleteBucket (bucketName : String)
  deriving DecidableEq, Repr

/-- The six resource categories of the spec's state machine. -/
inductive Step where
  | storage
  | identity
  | network
  | data
  | catalogDb
  | catalogTables
  deriving DecidableEq, Repr

/-- Resource category of each operation. -/
def stepOf : Op → Step
  | .createBucket _ _ => .storage
  | .waitBucketExists _ => .storage
  | .deleteBucket _ => .storage
  | .createGlueServiceRole _ => .identity
  | .putInlineS3Policy _ _ _ => .identity
  | .putGlueGeneralPolicy _ _ => .identity
  | .deleteInlineS3Policy _ => .identity
  | .deleteGlueGeneralPolicy _ => .identity
  | .deleteGlueServiceRole _ => .identity
  | .createVpcEndpoint _ _ _ => .network
  | .writeHandoffFile => .network
  | .deleteVpcEndpoint _ => .network
  | .uploadFile _ _ => .data
  | .createGlueDatabase _ => .catalogDb
  | .waitGlueDatabase _ => .catalogDb
  | .createGlueTable _ => .catalogTables
  | .deleteAllTablesInDatabase _ => .catalogTables
  | .deleteGlueDatabase _ => .catalogDb

/-- Embedding of `s3.create_bucket(bucket_name)`: the create-bucket request
is issued with `CreateBucketConfiguration={"LocationConstraint": "us-west-2"}`
hardcoded. -/
def createBucket (bucketName : String) : Op :=
  Op.createBucket bucketName "us-west-2"

/-- Embedding of `s3.create_and_wait_for_bucket(bucket_name)`: the
`wait_for_resource` decorator runs the wrapped create, then invokes the
`bucket_exists` waiter with `waiter_kwargs` built at decoration time from
the module-level constant `S3_BUCKET_NAME` — not from the argument. -/
def createAndWaitForBucket (cfg : Config) (bucketName : String) : List Op :=
  [createBucket bucketName, Op.waitBucketExists cfg.s3BucketName]

/-- Bucket names of the create-bucket requests in a trace. -/
def bucketsCreated (ops : List Op) : List String :=
  ops.filterMap fun op =>
    match op with
    | .createBucket n _ => some n
    | _ => none

/-- Bucket names of the `bucket_exists` waiter invocations in a trace. -/
def bucketsWaited (ops : List Op) : List String :=
  ops.filterMap fun op =>
    match op with
    | .waitBucketExists n => some n
    | _ => none

/-- Location constraints of the create-bucket requests in a trace. -/
def locationConstraints (ops : List Op) : List String :=
  ops.filterMap fun op =>
    match op with
    | .createBucket _ loc => some loc
    | _ => none

/-- Upload operations for the regular files of one entity's `landing`
directory (`for file_path in landing_dir.glob("*"): if file_path.is_file()`). -/
def landingUploads (bucketName folderName : String) : List DataEntry → List Op
  | [] => []
  | .file fname :: rest =>
    Op.uploadFile bucketName (folderName ++ "/landing/" ++ fname)
      :: landingUploads bucketName folderName rest
  | .dir _ _ :: rest => landingUploads bucketName folderName rest

/-- Embedding of `s3.load_data_to_bucket(bucket_name)` over the abstract
`data/` directory tree: each entity folder's `landing` files are uploaded to
key `entity/landing/filename`, entities without a `landing` directory are
skipped. -/
def loadDataToBucket (bucketName : String) : List DataEntry → List Op
  | [] => []
  | .dir folderName entries :: rest =>
    (match findLanding entries with
     | some landingEntries => landingUploads bucketName folderName landingEntries
     | none => []) ++ loadDataToBucket bucketName rest
  | .file _ :: rest => loadDataToBucket bucketName rest

/-- Embedding of `glue.create_and_wait_for_glue_database(database_name)`:
create the database, then run the manual polling wait on it. -/
def createAndWaitForGlueDatabase (databaseName : String) : List Op :=
  [Op.createGlueDatabase databaseName, Op.waitGlueDatabase databaseName]

/-- The VPC-endpoint service name built by setup's endpoint step:
`f"com.amazonaws.{REGION}.s3"`. -/
def endpointServiceName (cfg : Config) : String :=
  "com.amazonaws." ++ cfg.region ++ ".s3"

/-- The boolean parameters of `setup.run`, with the defaults of the source. -/
structure SetupFlags where
  initBucket : Bool := true
  initIamRoles : Bool := true
  initVpcEndpoint : Bool := false
  loadSampleData : Bool := true
  initGlueDatabase : Bool := true
  initGlueTables : Bool := true
  deriving DecidableEq, Repr

/-- Embedding of `setup.run`: the ordered trace of client operations it
issues, and the handoff payload it pickles (`vpc_endpoint.pkl`) when the
endpoint step runs.  `vpcResp` is the remote's response to
`create_vpc_endpoint`, the object that gets pickled. -/
def setupRun (cfg : Config) (schemas : List FsEntry) (dataDir : List DataEntry)
    (vpcResp : VpcEndpointResponse) (f : SetupFlags) :
    List Op × Option VpcEndpointResponse :=
  let bucketOps := if f.initBucket then createAndWaitForBucket cfg cfg.s3BucketName else []
  let iamOps :=
    if f.initIamRoles then
      [Op.createGlueServiceRole cfg.glueRoleName,
       Op.putInlineS3Policy cfg.glueRoleName cfg.s3RolePolicyName cfg.s3BucketName,
       Op.putGlueGeneralPolicy cfg.glueRoleName cfg.glueRolePolicyName]
    else []
  let vpcOps :=
    if f.initVpcEndpoint then
      [Op.createVpcEndpoint cfg.vpcId cfg.routeTableId (endpointServiceName cfg),
       Op.writeHandoffFile]
    else []
  let handoff := if f.initVpcEndpoint then some vpcResp else none
  let dataOps := if f.loadSampleData then loadDataToBucket cfg.s3BucketName dataDir else []
  let dbOps := if f.initGlueDatabase then createAndWaitForGlueDatabase cfg.dbName else []
  let tableOps :=
    if f.initGlueTables then
      (loadGlueTableConfigs cfg schemas cfg.dbName).map Op.createGlueTable
    else []
  (bucketOps ++ iamOps ++ vpcOps ++ dataOps ++ dbOps ++ tableOps, handoff)

/-- The boolean parameters of `teardown.run`, with the defaults of the source. -/
structure TeardownFlags where
  removeVpcEndpoint : Bool := false
  removeIamRoles : Bool := true
  removeGlueDatabase : Bool := true
  removeGlueTables : Bool := true
  removeBucket : Bool := true
  deriving DecidableEq, Repr

/-- The warning logged by teardown's endpoint step when the pickled handoff
file is absent. -/
def missingHandoffWarning : String :=
  "VPC endpoint pickle file not found, skipping VPC endpoint removal."

/-- Embedding of `teardown.run`: the ordered trace of client operations it
issues and the warnings it logs.  `handoff` is the content of
`vpc_endpoint.pkl` if that file exists (`pickle_path.is_file()`). -/
def teardownRun (cfg : Config) (handoff : Option VpcEndpointResponse)
    (f : TeardownFlags) : List Op × List String :=
  let vpcPart :=
    if f.removeVpcEndpoint then
      match handoff with
      | some resp => ([Op.deleteVpcEndpoint resp.vpcEndpoint.vpcEndpointId],
                      ([] : List String))
      | none => ([], [missingHandoffWarning])
    else ([], [])
  let iamOps :=
    if f.removeIamRoles then
      [Op.deleteInlineS3Policy cfg.glueRoleName,
       Op.deleteGlueGeneralPolicy cfg.glueRoleName,
       Op.deleteGlueServiceRole cfg.glueRoleName]
    else []
  let tableOps := if f.removeGlueTables then [Op.deleteAllTablesInDatabase cfg.dbName] else []
  let dbOps := if f.removeGlueDatabase then [Op.deleteGlueDatabase cfg.dbName] else []
  let bucketOps := if f.removeBucket then [Op.deleteBucket cfg.s3BucketName] else []
  (vpcPart.1 ++ iamOps ++ tableOps ++ dbOps ++ bucketOps, vpcPart.2)

/-- The creation order of `setup.run`'s flag-gated blocks:
storage → identity → network → data → catalog-db → catalog-tables. -/
def creationOrder : List Step :=
  [.storage, .identity, .network, .data, .catalogDb, .catalogTables]

/-- The order of `teardown.run`'s flag-gated blocks, as written in the
source: network → identity → catalog-tables → catalog-db → storage. -/
def teardownOrderList : List Step :=
  [.network, .identity, .catalogTables, .catalogDb, .storage]

/-- Which setup step each flag of `setup.run` enables. -/
def setupEnabled (f : SetupFlags) : Step → Bool
  | .storage => f.initBucket
  | .identity => f.initIamRoles
  | .network => f.initVpcEndpoint
  | .data => f.loadSampleData
  | .catalogDb => f.initGlueDatabase
  | .catalogTables => f.initGlueTables

/-- The operations of each setup step when it is enabled. -/
def setupStepOps (cfg : Config) (schemas : List FsEntry)
    (dataDir : List DataEntry) : Step → List Op
  | .storage => createAndWaitForBucket cfg cfg.s3BucketName
  | .identity =>
    [Op.createGlueServiceRole cfg.glueRoleName,
     Op.putInlineS3Policy cfg.glueRoleName cfg.s3RolePolicyName cfg.s3BucketName,
     Op.putGlueGeneralPolicy cfg.glueRoleName cfg.glueRolePolicyName]
  | .network =>
    [Op.createVpcEndpoint cfg.vpcId cfg.routeTableId (endpointServiceName cfg),
     Op.writeHandoffFile]
  | .data => loadDataToBucket cfg.s3BucketName dataDir
  | .catalogDb => createAndWaitForGlueDatabase cfg.dbName
  | .catalogTables => (loadGlueTableConfigs cfg schemas cfg.dbName).map Op.createGlueTable

/-- Which teardown step each flag of `teardown.run` enables; there is no
sample-data teardown step. -/
def teardownEnabled (f : TeardownFlags) : Step → Bool
  | .storage => f.removeBucket
  | .identity => f.removeIamRoles
  | .network => f.removeVpcEndpoint
  | .data => false
  | .catalogDb => f.removeGlueDatabase
  | .catalogTables => f.removeGlueTables

/-- The operations of each teardown step when it is enabled (the endpoint
step issues its delete only when the handoff file is present). -/
def teardownStepOps (cfg : Config) (handoff : Option VpcEndpointResponse) :
    Step → List Op
  | .network =>
    match handoff with
    | some resp => [Op.deleteVpcEndpoint resp.vpcEndpoint.vpcEndpointId]
    | none => []
  | .identity =>
    [Op.deleteInlineS3Policy cfg.glueRoleName,
     Op.deleteGlueGeneralPolicy cfg.glueRoleName,
     Op.deleteGlueServiceRole cfg.glueRoleName]
  | .catalogTables => [Op.deleteAllTablesInDatabase cfg.dbName]
  | .catalogDb => [Op.deleteGlueDatabase cfg.dbName]
  | .storage => [Op.deleteBucket cfg.s3BucketName]
  | .data => []

/-- Sequential execution of a trace against a remote that makes `fails`
operations raise: Python propagates the first raised error, so execution
stops at the first failing operation.  Returns the operations actually
attempted and whether the run finished without an error. -/
def execOps (fails : Op → Bool) : List Op → List Op × Bool
  | [] => ([], true)
  | op :: rest =>
    if fails op then ([op], false)
    else
      let r := execOps fails rest
      (op :: r.1, r.2)

/-- Collapse adjacent repetitions: the sequence of steps a trace passes
through, each maximal run of same-step operations counted once. -/
def collapseRuns : List Step → List Step
  | [] => []
  | [s] => [s]
  | s :: t :: rest =>
    if s = t then collapseRuns (t :: rest) else s :: collapseRuns (t :: rest)

lemma setupRun_trace (cfg : Config) (schemas : List FsEntry)
    (dataDir : List DataEntry) (vpcResp : VpcEndpointResponse) :
    ∀ f, (setupRun cfg schemas dataDir vpcResp f).1 =
      (creationOrder.filter (setupEnabled f)).flatMap
        (setupStepOps cfg schemas dataDir) := by
  rintro ⟨b, i, v, d, g, t⟩
  cases b <;> cases i <;> cases v <;> cases d <;> cases g <;> cases t <;>
    simp [setupRun, setupStepOps, setupEnabled, creationOrder]

lemma teardownRun_trace (cfg : Config) (handoff : Option VpcEndpointResponse) :
    ∀ f, (teardownRun cfg handoff f).1 =
      (teardownOrderList.filter (teardownEnabled f)).flatMap
        (teardownStepOps cfg handoff) := by
  rintro ⟨v, i, d, t, b⟩
  cases handoff <;>
    cases v <;> cases i <;> cases d <;> cases t <;> cases b <;>
      simp [teardownRun, teardownStepOps, teardownEnabled, teardownOrderList]

lemma stepOf_landingUploads (bucketName folderName : String) :
    ∀ l op, op ∈ landingUploads bucketName folderName l → stepOf op = .data := by
  intro l
  induction l with
  | nil => intro op h; simp [landingUploads] at h
  | cons e rest ih =>
    intro op h
    cases e with
    | file fname =>
      simp only [landingUploads, List.mem_cons] at h
      rcases h with h | h
      · subst h; rfl
      · exact ih op h
    | dir n es => exact ih op h

lemma stepOf_loadDataToBucket (bucketName : String) :
    ∀ d op, op ∈ loadDataToBucket bucketName d → stepOf op = .data := by
  intro d
  induction d with
  | nil => intro op h; simp [loadDataToBucket] at h
  | cons e rest ih =>
    intro op h
    cases e with
    | file n => exact ih op h
    | dir n es =>
      simp only [loadDataToBucket, List.mem_append] at h
      rcases h with h | h
      · cases hf : findLanding es with
        | none => rw [hf] at h; simp at h
        | some les =>
          rw [hf] at h
          exact stepOf_landingUploads bucketName n les op h
      · exact ih op h

lemma stepOf_setupStepOps (cfg : Config) (schemas : List FsEntry)
    (dataDir : List DataEntry) (s : Step) (op : Op)
    (h : op ∈ setupStepOps cfg schemas dataDir s) : stepOf op = s := by
  cases s with
  | storage =>
    simp only [setupStepOps, createAndWaitForBucket, createBucket,
      List.mem_cons, List.not_mem_nil, or_false] at h
    rcases h with h | h <;> subst h <;> rfl
  | identity =>
    simp only [setupStepOps, List.mem_cons, List.not_mem_nil, or_false] at h
    rcases h with h | h | h <;> subst h <;> rfl
  | network =>
    simp only [setupStepOps, List.mem_cons, List.not_mem_nil, or_false] at h
    rcases h with h | h <;> subst h <;> rfl
  | data => exact stepOf_loadDataToBucket cfg.s3BucketName dataDir op h
  | catalogDb =>
    simp only [setupStepOps, createAndWaitForGlueDatabase,
      List.mem_cons, List.not_mem_nil, or_false] at h
    rcases h with h | h <;> subst h <;> rfl
  | catalogTables =>
    simp only [setupStepOps, List.mem_map] at h
    obtain ⟨c, _, rfl⟩ := h
    rfl

lemma stepOf_teardownStepOps (cfg : Config)
    (handoff : Option VpcEndpointResponse) (s : Step) (op : Op)
    (h : op ∈ teardownStepOps cfg handoff s) : stepOf op = s := by
  cases s with
  | network =>
    cases handoff with
    | none => simp [teardownStepOps] at h
    | some resp =>
      simp only [teardownStepOps, List.mem_cons, List.not_mem_nil, or_false] at h
      subst h; rfl
  | identity =>
    simp only [teardownStepOps, List.mem_cons, List.not_mem_nil, or_false] at h
    rcases h with h | h | h <;> subst h <;> rfl
  | catalogTables =>
    simp only [teardownStepOps, List.mem_cons, List.not_mem_nil, or_false] at h
    subst h; rfl
  | catalogDb =>
    simp only [teardownStepOps, List.mem_cons, List.not_mem_nil, or_false] at h
    subst h; rfl
  | storage =>
    simp only [teardownStepOps, List.mem_cons, List.not_mem_nil, or_false] at h
    subst h; rfl
  | data => simp [teardownStepOps] at h

lemma execOps_spec (fails : Op → Bool) :
    ∀ ops, execOps fails ops =
      (ops.takeWhile (fun op => !fails op) ++
        (ops.dropWhile (fun op => !fails op)).take 1,
       ops.all (fun op => !fails op)) := by
  intro ops
  induction ops with
  | nil => rfl
  | cons op rest ih =>
    by_cases h : fails op = true
    · simp [execOps, h, List.takeWhile_cons, List.dropWhile_cons]
    · rw [Bool.not_eq_true] at h
      simp [execOps, h, List.takeWhile_cons, List.dropWhile_cons, ih]

/-- A concrete configuration used by closed witnesses and counterexamples. -/
def cfgEx : Config :=
  { s3BucketName := "stedi-data-lake"
    routeTableId := "rtb-0123"
    vpcId := "vpc-0123"
    region := "us-east-1"
    glueRoleName := "glue_service_role"
    glueRolePolicyName := "glue_general_policy"
    s3RolePolicyName := "s3_inline_policy"
    dbName := "stedi_db" }

/-- A concrete create-endpoint response payload. -/
def respEx : VpcEndpointResponse :=
  { vpcEndpoint := { vpcEndpointId := "vpce-0abc", rest := [("State", "available")] }
    rest := [("ResponseMetadata", "ok")] }

/-- A concrete schemas directory: `schemas/orders/landing/schema.json` with
one column `("id", "string")` — the spec's worked example. -/
def schemasEx : List FsEntry :=
  [FsEntry.dir "orders" [FsEntry.dir "landing" [FsEntry.file "schema.json" [⟨"id", "string"⟩]]]]

/-- A concrete local data directory: `data/orders/landing/orders.json`. -/
def dataEx : List DataEntry :=
  [DataEntry.dir "orders" [DataEntry.dir "landing" [DataEntry.file "orders.json"]]]

/-- Teardown flags with every step enabled. -/
def allTeardownFlags : TeardownFlags :=
  { removeVpcEndpoint := true }

/-- Setup flags with every step enabled, endpoint included. -/
def allSetupFlags : SetupFlags :=
  { initVpcEndpoint := true }

/-- A remote on which exactly the inline-S3-policy delete raises. -/
def failsInlinePolicy : Op → Bool :=
  fun op => decide (op = Op.deleteInlineS3Policy "glue_service_role")

/-- C1 counterexample: with every teardown flag enabled and the handoff file
present, the step sequence of the teardown trace is
network → identity → catalog-tables → catalog-db → storage, which is not the
exact reverse (catalog-tables → catalog-db → network → identity → storage)
of the setup creation order restricted to the deletion steps. -/
theorem teardown_not_exact_reverse_cex :
    collapseRuns (((teardownRun cfgEx (some respEx) allTeardownFlags).1).map stepOf) =
      [Step.network, Step.identity, Step.catalogTables, Step.catalogDb, Step.storage] ∧
    collapseRuns (((teardownRun cfgEx (some respEx) allTeardownFlags).1).map stepOf) ≠
      creationOrder.reverse.filter (teardownEnabled allTeardownFlags) := by
  constructor <;> decide

/-- C1 (amended): for every combination of enabled teardown flags, the
teardown orchestrator invokes the enabled resource-deletion steps in the
fixed source order network → identity → catalog-tables → catalog-db →
storage (not the exact reverse of setup's creation order), skipping disabled
steps entirely. -/
theorem teardown_run_order (cfg : Config) (handoff : Option VpcEndpointResponse)
    (f : TeardownFlags) :
    (teardownRun cfg handoff f).1 =
      (teardownOrderList.filter (teardownEnabled f)).flatMap
        (teardownStepOps cfg handoff) ∧
    ∀ s, teardownEnabled f s = false →
      ∀ op ∈ (teardownRun cfg handoff f).1, stepOf op ≠ s := by
  refine ⟨teardownRun_trace cfg handoff f, ?_⟩
  intro s hs op hop heq
  rw [teardownRun_trace cfg handoff f] at hop
  obtain ⟨s', hs', hop'⟩ := List.mem_flatMap.1 hop
  have hen : teardownEnabled f s' = true := (List.mem_filter.1 hs').2
  have hst := stepOf_teardownStepOps cfg handoff s' op hop'
  rw [hst] at heq
  subst heq
  rw [hs] at hen
  exact Bool.noConfusion hen

theorem teardown_run_order_witness :
    (teardownRun cfgEx none {}).1 =
      (teardownOrderList.filter (teardownEnabled {})).flatMap
        (teardownStepOps cfgEx none) ∧
    stepOf (Op.deleteBucket "stedi-data-lake") ≠ Step.network := by
  have h := teardown_run_order cfgEx none {}
  exact ⟨h.1, h.2 Step.network rfl (Op.deleteBucket "stedi-data-lake") (by decide)⟩

/-- C2: for every combination of enabled setup flags, the setup orchestrator
issues its operations as the concatenation, in the fixed creation order
storage → identity → network → data → catalog-db → catalog-tables, of the
operations of the enabled steps, and no operation of a disabled step appears
in the trace. -/
theorem setup_run_order (cfg : Config) (schemas : List FsEntry)
    (dataDir : List DataEntry) (vpcResp : VpcEndpointResponse)
    (f : SetupFlags) :
    (setupRun cfg schemas dataDir vpcResp f).1 =
      (creationOrder.filter (setupEnabled f)).flatMap
        (setupStepOps cfg schemas dataDir) ∧
    ∀ s, setupEnabled f s = false →
      ∀ op ∈ (setupRun cfg schemas dataDir vpcResp f).1, stepOf op ≠ s := by
  refine ⟨setupRun_trace cfg schemas dataDir vpcResp f, ?_⟩
  intro s hs op hop heq
  rw [setupRun_trace cfg schemas dataDir vpcResp f] at hop
  obtain ⟨s', hs', hop'⟩ := List.mem_flatMap.1 hop
  have hen : setupEnabled f s' = true := (List.mem_filter.1 hs').2
  have hst := stepOf_setupStepOps cfg schemas dataDir s' op hop'
  rw [hst] at heq
  subst heq
  rw [hs] at hen
  exact Bool.noConfusion hen

theorem setup_run_order_witness :
    (setupRun cfgEx schemasEx dataEx respEx {}).1 =
      (creationOrder.filter (setupEnabled {})).flatMap
        (setupStepOps cfgEx schemasEx dataEx) ∧
    stepOf (Op.createBucket "stedi-data-lake" "us-west-2") ≠ Step.network := by
  have h := setup_run_order cfgEx schemasEx dataEx respEx {}
  exact ⟨h.1, h.2 Step.network rfl (Op.createBucket "stedi-data-lake" "us-west-2")
    (by decide)⟩

/-- C3 counterexample: with every teardown step enabled and the
inline-S3-policy delete failing, the catalog-tables step — enabled and later
in the run — is never executed, and the run stops at the failure instead of
exhausting the step list: `teardown.run` has no per-step error handling. -/
theorem teardown_failure_stops_run_cex :
    Op.deleteAllTablesInDatabase "stedi_db" ∈
      (teardownRun cfgEx (some respEx) allTeardownFlags).1 ∧
    (execOps failsInlinePolicy (teardownRun cfgEx (some respEx) allTeardownFlags).1).2 = false ∧
    Op.deleteAllTablesInDatabase "stedi_db" ∉
      (execOps failsInlinePolicy (teardownRun cfgEx (some respEx) allTeardownFlags).1).1 := by
  refine ⟨by decide, by decide, by decide⟩

/-- C3 (amended): a remote failure in one enabled teardown step aborts the
run immediately: the executed trace is the failure-free prefix of the
planned trace plus the first failing operation, nothing after it runs, and
the run reports failure. -/
theorem teardown_failure_aborts (cfg : Config)
    (handoff : Option VpcEndpointResponse) (f : TeardownFlags)
    (fails : Op → Bool)
    (h : ∃ op ∈ (teardownRun cfg handoff f).1, fails op = true) :
    (execOps fails (teardownRun cfg handoff f).1).2 = false ∧
    (execOps fails (teardownRun cfg handoff f).1).1 =
      (teardownRun cfg handoff f).1.takeWhile (fun op => !fails op) ++
        ((teardownRun cfg handoff f).1.dropWhile (fun op => !fails op)).take 1 := by
  obtain ⟨op, hmem, hfail⟩ := h
  rw [execOps_spec]
  refine ⟨?_, rfl⟩
  cases hall : (teardownRun cfg handoff f).1.all (fun op => !fails op) with
  | false => rfl
  | true =>
    have := List.all_eq_true.1 hall op hmem
    rw [hfail] at this
    exact Bool.noConfusion this

theorem teardown_failure_aborts_witness :
    (execOps failsInlinePolicy (teardownRun cfgEx (some respEx) allTeardownFlags).1).2 = false ∧
    (execOps failsInlinePolicy (teardownRun cfgEx (some respEx) allTeardownFlags).1).1 =
      (teardownRun cfgEx (some respEx) allTeardownFlags).1.takeWhile
          (fun op => !failsInlinePolicy op) ++
        ((teardownRun cfgEx (some respEx) allTeardownFlags).1.dropWhile
          (fun op => !failsInlinePolicy op)).take 1 :=
  teardown_failure_aborts cfgEx (some respEx) allTeardownFlags failsInlinePolicy
    ⟨Op.deleteInlineS3Policy "glue_service_role", by decide, by decide⟩

/-- C6: when the endpoint-removal flag is enabled but the handoff file is
absent, teardown logs exactly the one missing-file warning, attempts no
network-step operation, and still runs every other enabled step in the
source order. -/
theorem teardown_missing_handoff (cfg : Config) (f : TeardownFlags)
    (h : f.removeVpcEndpoint = true) :
    (teardownRun cfg none f).2 = [missingHandoffWarning] ∧
    (∀ op ∈ (teardownRun cfg none f).1, stepOf op ≠ Step.network) ∧
    (teardownRun cfg none f).1 =
      (teardownOrderList.filter (teardownEnabled f)).flatMap
        (teardownStepOps cfg none) := by
  refine ⟨?_, ?_, teardownRun_trace cfg none f⟩
  · obtain ⟨v, i, d, t, b⟩ := f
    subst h
    rfl
  · intro op hop heq
    rw [teardownRun_trace cfg none f] at hop
    obtain ⟨s', _, hop'⟩ := List.mem_flatMap.1 hop
    have hst := stepOf_teardownStepOps cfg none s' op hop'
    rw [hst] at heq
    subst heq
    simp [teardownStepOps] at hop'

theorem teardown_missing_handoff_witness :
    (teardownRun cfgEx none allTeardownFlags).2 = [missingHandoffWarning] ∧
    (∀ op ∈ (teardownRun cfgEx none allTeardownFlags).1, stepOf op ≠ Step.network) ∧
    (teardownRun cfgEx none allTeardownFlags).1 =
      (teardownOrderList.filter (teardownEnabled allTeardownFlags)).flatMap
        (teardownStepOps cfgEx none) :=
  teardown_missing_handoff cfgEx allTeardownFlags rfl

/-- C7: the handoff payload persisted by setup's endpoint step, read back by
teardown's endpoint step, yields the endpoint identifier of the payload the
create call returned to setup, and exactly that identifier is passed to the
endpoint-delete operation. -/
theorem handoff_round_trip (cfg : Config) (schemas : List FsEntry)
    (dataDir : List DataEntry) (vpcResp : VpcEndpointResponse)
    (sf : SetupFlags) (tf : TeardownFlags)
    (hs : sf.initVpcEndpoint = true) (ht : tf.removeVpcEndpoint = true) :
    (setupRun cfg schemas dataDir vpcResp sf).2 = some vpcResp ∧
    Op.deleteVpcEndpoint vpcResp.vpcEndpoint.vpcEndpointId ∈
      (teardownRun cfg (setupRun cfg schemas dataDir vpcResp sf).2 tf).1 := by
  have h2 : (setupRun cfg schemas dataDir vpcResp sf).2 = some vpcResp := by
    obtain ⟨b, i, v, d, g, t⟩ := sf
    subst hs
    rfl
  refine ⟨h2, ?_⟩
  rw [h2]
  obtain ⟨v', i, d, t, b⟩ := tf
  subst ht
  simp [teardownRun]

theorem handoff_round_trip_witness :
    (setupRun cfgEx schemasEx dataEx respEx allSetupFlags).2 = some respEx ∧
    Op.deleteVpcEndpoint respEx.vpcEndpoint.vpcEndpointId ∈
      (teardownRun cfgEx (setupRun cfgEx schemasEx dataEx respEx allSetupFlags).2
        allTeardownFlags).1 :=
  handoff_round_trip cfgEx schemasEx dataEx respEx allSetupFlags allTeardownFlags
    rfl rfl

/-- C8: a subentity directory with a `schema.json` yields exactly one table
config, named `entity_subentity`, with storage path `entity/subentity/` and
the file's column list in file order; and that config is among the loader's
results for any schemas tree containing the entity and subentity. -/
theorem load_glue_table_configs_shape (cfg : Config)
    (databaseName entity sub : String) (sentries subs schemas : List FsEntry)
    (cols : List GlueColumn)
    (hcols : schemaColumns? sentries = some cols)
    (hsub : FsEntry.dir sub sentries ∈ subs)
    (hent : FsEntry.dir entity subs ∈ schemas) :
    subentityConfigs databaseName entity cfg.s3BucketName
        (FsEntry.dir sub sentries) =
      [{ databaseName := databaseName, tableName := entity ++ "_" ++ sub,
         bucketName := cfg.s3BucketName,
         folderPre := entity ++ "/" ++ sub ++ "/", columns := cols }] ∧
    ({ databaseName := databaseName, tableName := entity ++ "_" ++ sub,
       bucketName := cfg.s3BucketName,
       folderPre := entity ++ "/" ++ sub ++ "/",
       columns := cols : GlueTableConfig }) ∈
      loadGlueTableConfigs cfg schemas databaseName := by
  have h1 : subentityConfigs databaseName entity cfg.s3BucketName
      (FsEntry.dir sub sentries) =
      [{ databaseName := databaseName, tableName := entity ++ "_" ++ sub,
         bucketName := cfg.s3BucketName,
         folderPre := entity ++ "/" ++ sub ++ "/", columns := cols }] := by
    simp [subentityConfigs, hcols, mkGlueTableConfig]
  refine ⟨h1, ?_⟩
  unfold loadGlueTableConfigs
  refine List.mem_flatMap.2 ⟨FsEntry.dir entity subs, hent, ?_⟩
  unfold entityConfigs
  refine List.mem_flatMap.2 ⟨FsEntry.dir sub sentries, hsub, ?_⟩
  rw [h1]
  exact List.mem_singleton.2 rfl

theorem load_glue_table_configs_shape_witness :
    subentityConfigs "stedi_db" "orders" cfgEx.s3BucketName
        (FsEntry.dir "landing" [FsEntry.file "schema.json" [⟨"id", "string"⟩]]) =
      [{ databaseName := "stedi_db", tableName := "orders" ++ "_" ++ "landing",
         bucketName := cfgEx.s3BucketName,
         folderPre := "orders" ++ "/" ++ "landing" ++ "/",
         columns := [⟨"id", "string"⟩] }] ∧
    ({ databaseName := "stedi_db", tableName := "orders" ++ "_" ++ "landing",
       bucketName := cfgEx.s3BucketName,
       folderPre := "orders" ++ "/" ++ "landing" ++ "/",
       columns := [⟨"id", "string"⟩] : GlueTableConfig }) ∈
      loadGlueTableConfigs cfgEx schemasEx "stedi_db" :=
  load_glue_table_configs_shape cfgEx "stedi_db" "orders" "landing"
    [FsEntry.file "schema.json" [⟨"id", "string"⟩]]
    [FsEntry.dir "landing" [FsEntry.file "schema.json" [⟨"id", "string"⟩]]]
    schemasEx [⟨"id", "string"⟩] rfl (List.mem_singleton.2 rfl)
    (List.mem_singleton.2 rfl)

/-- C9: `create_and_wait_for_bucket(bucket_name)` creates the bucket named
by its argument but waits on the configuration constant `S3_BUCKET_NAME`
captured by the decorator at import time; the created and the waited-on
bucket coincide exactly when the argument equals that constant. -/
theorem create_and_wait_bucket_mismatch (cfg : Config) (bucketName : String) :
    bucketsCreated (createAndWaitForBucket cfg bucketName) = [bucketName] ∧
    bucketsWaited (createAndWaitForBucket cfg bucketName) = [cfg.s3BucketName] ∧
    (bucketsCreated (createAndWaitForBucket cfg bucketName) =
        bucketsWaited (createAndWaitForBucket cfg bucketName) ↔
      bucketName = cfg.s3BucketName) := by
  refine ⟨rfl, rfl, ?_⟩
  simp [bucketsCreated, bucketsWaited, createAndWaitForBucket, createBucket]

theorem create_and_wait_bucket_mismatch_witness :
    bucketsCreated (createAndWaitForBucket cfgEx "other-bucket") = ["other-bucket"] ∧
    bucketsWaited (createAndWaitForBucket cfgEx "other-bucket") = [cfgEx.s3BucketName] ∧
    (bucketsCreated (createAndWaitForBucket cfgEx "other-bucket") =
        bucketsWaited (createAndWaitForBucket cfgEx "other-bucket") ↔
      "other-bucket" = cfgEx.s3BucketName) :=
  create_and_wait_bucket_mismatch cfgEx "other-bucket"

lemma locationConstraints_nil_of_no_storage (l : List Op)
    (h : ∀ op ∈ l, stepOf op ≠ Step.storage) : locationConstraints l = [] := by
  induction l with
  | nil => rfl
  | cons op rest ih =>
    have hop := h op (List.mem_cons_self op rest)
    have hrest := ih fun o ho => h o (List.mem_cons_of_mem op ho)
    cases op <;>
      first
        | exact absurd rfl hop
        | simpa [locationConstraints, List.filterMap_cons] using hrest

/-- C10: `create_bucket` fixes the create-bucket location constraint to the
literal `"us-west-2"` whatever the configured region is — in any setup run
the only location constraint ever sent is `"us-west-2"` — while the same
setup builds the endpoint service name from the configured region. -/
theorem create_bucket_fixed_region (cfg : Config) (bucketName : String)
    (schemas : List FsEntry) (dataDir : List DataEntry)
    (vpcResp : VpcEndpointResponse) (f : SetupFlags) :
    createBucket bucketName = Op.createBucket bucketName "us-west-2" ∧
    (cfg.region ≠ "us-west-2" →
      createBucket bucketName ≠ Op.createBucket bucketName cfg.region) ∧
    locationConstraints (setupRun cfg schemas dataDir vpcResp f).1 =
      (if f.initBucket then ["us-west-2"] else []) ∧
    (f.initVpcEndpoint = true →
      Op.createVpcEndpoint cfg.vpcId cfg.routeTableId
          ("com.amazonaws." ++ cfg.region ++ ".s3") ∈
        (setupRun cfg schemas dataDir vpcResp f).1) := by
  have hdata : locationConstraints (loadDataToBucket cfg.s3BucketName dataDir) = [] :=
    locationConstraints_nil_of_no_storage _ fun op hop => by
      rw [stepOf_loadDataToBucket cfg.s3BucketName dataDir op hop]
      exact fun hh => Step.noConfusion hh
  have htables : locationConstraints
      ((loadGlueTableConfigs cfg schemas cfg.dbName).map Op.createGlueTable) = [] :=
    locationConstraints_nil_of_no_storage _ fun op hop => by
      obtain ⟨c, _, rfl⟩ := List.mem_map.1 hop
      exact fun hh => Step.noConfusion hh
  simp only [locationConstraints] at hdata htables
  refine ⟨rfl, ?_, ?_, ?_⟩
  · intro hne heq
    exact hne (Op.createBucket.inj heq).2.symm
  · obtain ⟨b, i, v, d, g, t⟩ := f
    cases b <;> cases i <;> cases v <;> cases d <;> cases g <;> cases t <;>
      simp [setupRun, locationConstraints, createAndWaitForBucket, createBucket,
        createAndWaitForGlueDatabase, List.filterMap_append, hdata, htables]
  · intro hv
    obtain ⟨b, i, v, d, g, t⟩ := f
    subst hv
    simp [setupRun, endpointServiceName]

theorem create_bucket_fixed_region_witness :
    createBucket "my-bucket" = Op.createBucket "my-bucket" "us-west-2" ∧
    createBucket "my-bucket" ≠ Op.createBucket "my-bucket" cfgEx.region ∧
    locationConstraints (setupRun cfgEx schemasEx dataEx respEx allSetupFlags).1 =
      ["us-west-2"] ∧
    Op.createVpcEndpoint cfgEx.vpcId cfgEx.routeTableId
        ("com.amazonaws." ++ cfgEx.region ++ ".s3") ∈
      (setupRun cfgEx schemasEx dataEx respEx allSetupFlags).1 := by
  have h := create_bucket_fixed_region cfgEx "my-bucket" schemasEx dataEx respEx
    allSetupFlags
  exact ⟨h.1, h.2.1 (by decide), by simpa using h.2.2.1, h.2.2.2 rfl⟩
